import Mathlib

/-!
Verification development for the lottie-animation-search metrics ledger and
style-configuration subsystems.

The definitions below are a shallow embedding of the TypeScript source:

* `src/metrics/types.ts` — `ToolInvocation`, `ToolStats`, `MetricsData`,
  `IssueReport`, `IssuesData` and the empty-document constructors.
* `src/metrics/storage.ts` — `trimInvocationsForSize` (the while loop that
  drops the oldest quarter of the invocations until the serialized document
  fits).  `JSON.stringify(data).length` is abstracted as an explicit
  `jsonLen : MetricsData → Nat` parameter; every theorem below holds for an
  arbitrary such measure.  `Math.floor(n * 0.25)` on a Nat-sized length is
  exactly `n / 4` (multiplication by 0.25 is exact in binary floating point
  for any array length), which is how it is rendered here.
* `src/metrics/collector.ts` — `MetricsCollector.record` and
  `updateToolStats`.  Wall-clock reads (`new Date().toISOString()`) are
  passed in as an explicit `now : String` argument; the write queue performs
  I/O only and does not touch the in-memory document, so it is not part of
  the pure state.
* `src/metrics/issues.ts` — `IssueCollector.report`.  The generated id
  (`Date.now()`/`Math.random()`) and the timestamp are oracle inputs.
* `src/config/styles.ts` — `getMergedConfig`, `deleteStyle`,
  `getStyleForFolder` and the path normalization / split / join helpers.
  JavaScript string operations that do not kernel-reduce in Lean are ported
  as structural recursion over the character list: `replace(/\/+$/, "")`
  becomes `normalizePath`, `split("/")` becomes `splitSlash`,
  `slice(0, i).join("/")` becomes `joinSlash` of `List.take`.

Numbers (durations, counters) are JavaScript numbers holding nonnegative
integers; they are modelled as `Nat`, and `Math.round(total / count)` as the
exact rational rounded half-up (`mathRound`).
-/

/-- A single tool invocation record (`ToolInvocation` in `types.ts`).  The
`arguments` map and the `result` payload are opaque JSON values; they are
embedded as serialized strings since no operation of the core inspects
them. -/
structure ToolInvocation where
  tool : String
  timestamp : String
  duration_ms : Nat
  reasoning : String
  arguments : List (String × String)
  success : Bool
  error : Option String
  result : Option String
deriving Repr, DecidableEq

/-- Aggregated statistics for a single tool (`ToolStats` in `types.ts`). -/
structure ToolStats where
  call_count : Nat
  total_duration_ms : Nat
  avg_duration_ms : Nat
  success_count : Nat
  error_count : Nat
  last_used : String
deriving Repr, DecidableEq

/-- Complete metrics document (`MetricsData` in `types.ts`).  The
`tool_stats` record keyed by tool name is embedded as a partial map. -/
structure MetricsData where
  server_name : String
  created_at : String
  updated_at : String
  total_invocations : Nat
  tool_stats : String → Option ToolStats
  invocations : List ToolInvocation

/-- Constructor `createEmptyMetricsData` of `types.ts`; the wall-clock read
is the explicit `now` argument. -/
def createEmptyMetricsData (serverName now : String) : MetricsData :=
  { server_name := serverName
    created_at := now
    updated_at := now
    total_invocations := 0
    tool_stats := fun _ => none
    invocations := [] }

/-- JavaScript `Math.round (total / count)` for nonnegative integers: the
exact rational `total / count` rounded half-up,
`⌊(total / count) + 1/2⌋ = (2 * total + count) / (2 * count)`. -/
def mathRound (total count : Nat) : Nat :=
  (2 * total + count) / (2 * count)

/-- One step of `MetricsCollector.updateToolStats` (`collector.ts`): either
update an existing per-tool entry in place, or seed a fresh one from the
single event. -/
def updateToolStats (stats : String → Option ToolStats) (inv : ToolInvocation) :
    String → Option ToolStats :=
  match stats inv.tool with
  | some existing =>
      fun n =>
        if n = inv.tool then
          some { call_count := existing.call_count + 1
                 total_duration_ms := existing.total_duration_ms + inv.duration_ms
                 avg_duration_ms :=
                   mathRound (existing.total_duration_ms + inv.duration_ms)
                     (existing.call_count + 1)
                 success_count :=
                   if inv.success then existing.success_count + 1 else existing.success_count
                 error_count :=
                   if inv.success then existing.error_count else existing.error_count + 1
                 last_used := inv.timestamp }
        else stats n
  | none =>
      fun n =>
        if n = inv.tool then
          some { call_count := 1
                 total_duration_ms := inv.duration_ms
                 avg_duration_ms := inv.duration_ms
                 success_count := if inv.success then 1 else 0
                 error_count := if inv.success then 0 else 1
                 last_used := inv.timestamp }
        else stats n

/-- In-memory state of a `MetricsCollector` instance: the document plus the
`initialized` flag. -/
structure MetricsCollectorState where
  data : MetricsData
  initialized : Bool

/-- The pure part of `MetricsCollector.record` (`collector.ts`): when not
initialized it logs and returns without touching the document; otherwise it
appends the invocation, bumps `total_invocations`, stamps `updated_at` and
updates the per-tool stats.  The enqueued disk write does not modify the
in-memory document. -/
def MetricsCollector.record (inv : ToolInvocation) (now : String)
    (st : MetricsCollectorState) : MetricsCollectorState :=
  if st.initialized then
    { st with
      data := { st.data with
        invocations := st.data.invocations ++ [inv]
        total_invocations := st.data.total_invocations + 1
        updated_at := now
        tool_stats := updateToolStats st.data.tool_stats inv } }
  else st

/-- Folding `MetricsCollector.record` over a sequence of (invocation,
wall-clock) pairs. -/
def recordSeq (l : List (ToolInvocation × String)) (st : MetricsCollectorState) :
    MetricsCollectorState :=
  l.foldl (fun s p => MetricsCollector.record p.1 p.2 s) st

/-- The while loop of `trimInvocationsForSize` (`storage.ts`): while the
serialized document is larger than `maxSizeBytes` and invocations remain,
drop the oldest `max(1, ⌊length * 0.25⌋)` entries and re-measure.
`jsonLen` stands for `JSON.stringify(data).length`. -/
def trimInvocationsForSize (jsonLen : MetricsData → Nat) (maxSizeBytes : Nat)
    (data : MetricsData) : MetricsData :=
  if h : jsonLen data > maxSizeBytes ∧ data.invocations.length > 0 then
    let removeCount := Nat.max 1 (data.invocations.length / 4)
    trimInvocationsForSize jsonLen maxSizeBytes
      { data with invocations := data.invocations.drop removeCount }
  else data
termination_by data.invocations.length
decreasing_by
  have h1 : 1 ≤ Nat.max 1 (data.invocations.length / 4) := Nat.le_max_left _ _
  simp only [List.length_drop]
  omega

/-- Fuel-indexed rendering of the same while loop, one unit of fuel per
iteration; `none` means the fuel ran out before the loop condition became
false. -/
def trimFuel (jsonLen : MetricsData → Nat) (maxSizeBytes : Nat) :
    Nat → MetricsData → Option MetricsData
  | 0, _ => none
  | fuel + 1, data =>
    if jsonLen data > maxSizeBytes ∧ data.invocations.length > 0 then
      trimFuel jsonLen maxSizeBytes fuel
        { data with
          invocations := data.invocations.drop (Nat.max 1 (data.invocations.length / 4)) }
    else some data

/-- Issue severity levels (`ISSUE_SEVERITY_LEVELS` in `types.ts`). -/
inductive IssueSeverity where
  | low
  | medium
  | high
  | critical
deriving Repr, DecidableEq

/-- Issue categories (`ISSUE_CATEGORIES` in `types.ts`). -/
inductive IssueCategory where
  | bug
  | feature_request
  | documentation
  | performance
  | security
  | other
deriving Repr, DecidableEq

/-- A single issue report (`IssueReport` in `types.ts`). -/
structure IssueReport where
  id : String
  title : String
  description : String
  severity : IssueSeverity
  category : IssueCategory
  steps_to_reproduce : Option String
  expected_behavior : Option String
  actual_behavior : Option String
  environment : Option String
  created_at : String
deriving Repr, DecidableEq

/-- Complete issues document (`IssuesData` in `types.ts`): the `issues`
sequence is newest-first. -/
structure IssuesData where
  server_name : String
  created_at : String
  updated_at : String
  total_issues : Nat
  issues : List IssueReport
deriving Repr, DecidableEq

/-- Constructor `createEmptyIssuesData` of `types.ts`. -/
def createEmptyIssuesData (serverName now : String) : IssuesData :=
  { server_name := serverName
    created_at := now
    updated_at := now
    total_issues := 0
    issues := [] }

/-- Maximum number of issues kept in the file (`MAX_ISSUES` in
`issues.ts`). -/
def MAX_ISSUES : Nat := 100

/-- In-memory state of an `IssueCollector` instance. -/
structure IssueCollectorState where
  data : IssuesData
  initialized : Bool
deriving Repr, DecidableEq

/-- The caller-supplied parameters of `IssueCollector.report`. -/
structure IssueParams where
  title : String
  description : String
  severity : IssueSeverity
  category : IssueCategory
  steps_to_reproduce : Option String
  expected_behavior : Option String
  actual_behavior : Option String
  environment : Option String
deriving Repr, DecidableEq

/-- The pure part of `IssueCollector.report` (`issues.ts`).  The generated
id and the wall-clock timestamp are explicit inputs.  When the collector is
not initialized it throws; otherwise it prepends the new issue (newest
first), bumps `total_issues`, stamps `updated_at`, and truncates the
sequence to `MAX_ISSUES` entries when it exceeds the cap.  It returns the
created report together with the new state; the enqueued disk write does
not modify the in-memory document. -/
def IssueCollector.report (params : IssueParams) (id now : String)
    (st : IssueCollectorState) : Except String (IssueCollectorState × IssueReport) :=
  if st.initialized then
    let issue : IssueReport :=
      { id := id
        title := params.title
        description := params.description
        severity := params.severity
        category := params.category
        steps_to_reproduce := params.steps_to_reproduce
        expected_behavior := params.expected_behavior
        actual_behavior := params.actual_behavior
        environment := params.environment
        created_at := now }
    let issues1 := issue :: st.data.issues
    let issues2 := if issues1.length > MAX_ISSUES then issues1.take MAX_ISSUES else issues1
    Except.ok
      ({ st with
         data := { st.data with
           issues := issues2
           total_issues := st.data.total_issues + 1
           updated_at := now } },
       issue)
  else
    Except.error "IssueCollector not initialized"

/-- One scope's style configuration (`StyleConfig` in `styles.ts`):
`styles` maps a style name to its tag list, `folders` maps a normalized
folder path to a style name. -/
structure StyleConfig where
  styles : String → Option (List String)
  folders : String → Option String

/-- The two configuration scopes. -/
inductive ConfigScope where
  | global
  | project
deriving Repr, DecidableEq

/-- Per-key provenance produced by `getMergedConfig` (its `_sources`
field). -/
structure MergedSources where
  styles : String → Option ConfigScope
  folders : String → Option ConfigScope

/-- The merged configuration returned by `getMergedConfig`. -/
structure MergedStyleConfig where
  styles : String → Option (List String)
  folders : String → Option String
  sources : MergedSources

/-- `getMergedConfig` of `styles.ts`: object-spread overlay
`{...global, ...project}` on both maps (project wins on key collision),
plus per-key provenance computed by marking every global key `"global"`
and then overwriting the mark of every project key with `"project"`. -/
def getMergedConfig (globalCfg projectCfg : StyleConfig) : MergedStyleConfig :=
  { styles := fun name =>
      match projectCfg.styles name with
      | some tags => some tags
      | none => globalCfg.styles name
    folders := fun path =>
      match projectCfg.folders path with
      | some styleName => some styleName
      | none => globalCfg.folders path
    sources :=
      { styles := fun name =>
          if (projectCfg.styles name).isSome then some ConfigScope.project
          else if (globalCfg.styles name).isSome then some ConfigScope.global
          else none
        folders := fun path =>
          if (projectCfg.folders path).isSome then some ConfigScope.project
          else if (globalCfg.folders path).isSome then some ConfigScope.global
          else none } }

/-- The two scope files of a deployment, as a pair of in-memory configs. -/
structure StylesState where
  globalCfg : StyleConfig
  projectCfg : StyleConfig

/-- Project the configuration of one scope out of the pair. -/
def configOf (scope : ConfigScope) (st : StylesState) : StyleConfig :=
  match scope with
  | ConfigScope.global => st.globalCfg
  | ConfigScope.project => st.projectCfg

/-- The opposite scope. -/
def otherScope : ConfigScope → ConfigScope
  | ConfigScope.global => ConfigScope.project
  | ConfigScope.project => ConfigScope.global

/-- The scope-local body of `deleteStyle` (`styles.ts`): if the name is
absent return `false` without writing; otherwise delete the style, delete
every folder association of this scope whose target style name equals the
deleted name, and return `true`. -/
def deleteStyleFromConfig (name : String) (cfg : StyleConfig) : StyleConfig × Bool :=
  match cfg.styles name with
  | none => (cfg, false)
  | some _ =>
    ({ styles := fun n => if n = name then none else cfg.styles n
       folders := fun f =>
         match cfg.folders f with
         | some styleName => if styleName = name then none else some styleName
         | none => none },
     true)

/-- `deleteStyle(name, scope)` of `styles.ts` acting on the pair of scope
configs: it reads and rewrites only the addressed scope. -/
def deleteStyle (name : String) (scope : ConfigScope) (st : StylesState) :
    StylesState × Bool :=
  match scope with
  | ConfigScope.global =>
    let r := deleteStyleFromConfig name st.globalCfg
    ({ st with globalCfg := r.1 }, r.2)
  | ConfigScope.project =>
    let r := deleteStyleFromConfig name st.projectCfg
    ({ st with projectCfg := r.1 }, r.2)

/-- JavaScript `folderPath.replace(/\/+$/, "")`: strip every trailing
slash. -/
def normalizePath (path : String) : String :=
  String.mk ((path.data.reverse.dropWhile (fun c => c = '/')).reverse)

/-- Accumulator recursion behind `splitSlash`; ports JavaScript
`String.prototype.split("/")` (which yields `[""]` on the empty string and
keeps empty fragments around separators). -/
def splitSlashAux : List Char → List Char → List String
  | [], acc => [String.mk acc.reverse]
  | c :: rest, acc =>
    if c = '/' then String.mk acc.reverse :: splitSlashAux rest []
    else splitSlashAux rest (c :: acc)

/-- JavaScript `path.split("/")`. -/
def splitSlash (s : String) : List String :=
  splitSlashAux s.data []

/-- JavaScript `parts.join("/")`. -/
def joinSlash (parts : List String) : String :=
  String.intercalate "/" parts

/-- The successful result shape of `getStyleForFolder`. -/
structure FolderStyleMatch where
  style : String
  tags : List String
  matchedPath : String
deriving Repr, DecidableEq

/-- The in-line association check of `getStyleForFolder`: a path matches
when it has a folder association whose target style name resolves to an
existing style's tags; an association whose target is missing from the
merged styles map (dangling) yields no match. -/
def lookupFolderStyle (config : MergedStyleConfig) (path : String) :
    Option FolderStyleMatch :=
  match config.folders path with
  | some styleName =>
    match config.styles styleName with
    | some tags => some { style := styleName, tags := tags, matchedPath := path }
    | none => none
  | none => none

/-- The parent-path loop of `getStyleForFolder`:
`for (let i = parts.length - 1; i > 0; i--)` checking
`parts.slice(0, i).join("/")`, i.e. the ancestors from the deepest parent
toward the root, returning the first association that resolves. -/
def walkParentPaths (config : MergedStyleConfig) (parts : List String) :
    Nat → Option FolderStyleMatch
  | 0 => none
  | i + 1 =>
    match lookupFolderStyle config (joinSlash (parts.take (i + 1))) with
    | some r => some r
    | none => walkParentPaths config parts i

/-- `getStyleForFolder` of `styles.ts` over a merged configuration:
normalize, try the exact path (falling through when the association is
dangling), then walk the ancestor directories from deepest to shallowest. -/
def getStyleForFolder (config : MergedStyleConfig) (folderPath : String) :
    Option FolderStyleMatch :=
  let normalizedPath := normalizePath folderPath
  match lookupFolderStyle config normalizedPath with
  | some r => some r
  | none =>
    let parts := splitSlash normalizedPath
    walkParentPaths config parts (parts.length - 1)

/-! Shared sample data used by the concrete witnesses. -/

/-- Sample invocation with the given tool name, duration and outcome. -/
def sampleInvocation (tool : String) (d : Nat) (success : Bool) : ToolInvocation :=
  { tool := tool
    timestamp := "2026-01-01T00:00:00.000Z"
    duration_ms := d
    reasoning := "sample"
    arguments := []
    success := success
    error := none
    result := none }

/-- A freshly initialized metrics collector. -/
def sampleCollector : MetricsCollectorState :=
  { data := createEmptyMetricsData "srv" "2026-01-01T00:00:00.000Z"
    initialized := true }

/-- Three recorded invocations of the tool `search` with durations 100, 200
and 300 ms. -/
def sampleSeq : List (ToolInvocation × String) :=
  [(sampleInvocation "search" 100 true, "t1"),
   (sampleInvocation "search" 200 true, "t2"),
   (sampleInvocation "search" 300 true, "t3")]

/-- A two-invocation metrics document. -/
def sampleMetricsData : MetricsData :=
  { server_name := "srv"
    created_at := "c"
    updated_at := "u"
    total_invocations := 2
    tool_stats := fun _ => none
    invocations := [sampleInvocation "a" 1 true, sampleInvocation "b" 2 false] }

/-- Sample issue parameters. -/
def sampleIssueParams : IssueParams :=
  { title := "broken search"
    description := "search returns nothing"
    severity := IssueSeverity.high
    category := IssueCategory.bug
    steps_to_reproduce := none
    expected_behavior := none
    actual_behavior := none
    environment := none }

/-- A freshly initialized issue collector. -/
def sampleIssueCollector : IssueCollectorState :=
  { data := createEmptyIssuesData "srv" "2026-01-01T00:00:00.000Z"
    initialized := true }

/-! C7: mutating before initialization. -/

/-- C7: calling `MetricsCollector.record` before `initialize` has completed
is a silent no-op that leaves the in-memory state entirely unchanged, while
calling `IssueCollector.report` before `initialize` has completed raises the
explicit error `"IssueCollector not initialized"` and produces no new
state. -/
theorem uninitialized_record_noop_report_throws :
    (∀ (inv : ToolInvocation) (now : String) (st : MetricsCollectorState),
      st.initialized = false → MetricsCollector.record inv now st = st) ∧
    (∀ (params : IssueParams) (id now : String) (st : IssueCollectorState),
      st.initialized = false →
        IssueCollector.report params id now st =
          Except.error "IssueCollector not initialized") := by
  constructor
  · intro inv now st h
    simp [MetricsCollector.record, h]
  · intro params id now st h
    simp [IssueCollector.report, h]

/-- Witness for C7 at a concrete uninitialized collector state. -/
theorem uninitialized_record_noop_report_throws_witness :
    (MetricsCollector.record (sampleInvocation "a" 1 true) "t"
        { data := createEmptyMetricsData "srv" "t0", initialized := false } =
      { data := createEmptyMetricsData "srv" "t0", initialized := false }) ∧
    (IssueCollector.report sampleIssueParams "id1" "t"
        { data := createEmptyIssuesData "srv" "t0", initialized := false } =
      Except.error "IssueCollector not initialized") :=
  ⟨uninitialized_record_noop_report_throws.1 _ _ _ rfl,
   uninitialized_record_noop_report_throws.2 _ _ _ _ rfl⟩

/-! C3: the issue cap. -/

/-- The cap-enforcing branch of `report` always equals a plain `take` of the
first `100` entries of the prepended sequence. -/
lemma cap_take (x : IssueReport) (l : List IssueReport) :
    (if (x :: l).length > MAX_ISSUES then (x :: l).take MAX_ISSUES else (x :: l)) =
      (x :: l).take 100 := by
  simp only [MAX_ISSUES]
  split
  · rfl
  · rename_i hgt
    rw [List.take_of_length_le]
    simp only [List.length_cons] at hgt ⊢
    omega

/-- C3: after any `IssueCollector.report` call on an initialized collector,
the in-memory issue sequence has length at most 100; the new report is
prepended (the sequence is the previous one with the new issue at the front,
truncated to 100); when the previous length was under 100 nothing is
evicted; on the call that would make the length 101 exactly the oldest
issue — the last element of the newest-first sequence — is evicted; and
`total_issues` is incremented in every case. -/
theorem report_caps_issues_at_100 :
    ∀ (params : IssueParams) (id now : String) (st : IssueCollectorState),
      st.initialized = true →
      ∃ (st' : IssueCollectorState) (issue : IssueReport),
        IssueCollector.report params id now st = Except.ok (st', issue) ∧
        st'.data.issues.length ≤ 100 ∧
        st'.data.issues = (issue :: st.data.issues).take 100 ∧
        (st.data.issues.length < 100 → st'.data.issues = issue :: st.data.issues) ∧
        (st.data.issues.length = 100 →
          st'.data.issues = issue :: st.data.issues.dropLast) ∧
        st'.data.total_issues = st.data.total_issues + 1 := by
  intro params id now st h
  obtain ⟨data, init⟩ := st
  cases init
  · exact Bool.noConfusion h
  · refine ⟨_, _, rfl, ?_, ?_, ?_, ?_, ?_⟩
    · dsimp only
      rw [cap_take, List.length_take]
      exact Nat.min_le_left _ _
    · dsimp only
      rw [cap_take]
    · intro hlt
      dsimp only at hlt ⊢
      rw [cap_take, List.take_of_length_le]
      simp only [List.length_cons]
      omega
    · intro heq
      dsimp only at heq ⊢
      rw [cap_take, show (100 : Nat) = 99 + 1 from rfl, List.take_succ_cons,
        List.dropLast_eq_take, heq]
    · rfl

/-- Witness for C3: reporting on a fresh initialized collector. -/
theorem report_caps_issues_at_100_witness :
    ∃ (st' : IssueCollectorState) (issue : IssueReport),
      IssueCollector.report sampleIssueParams "id1" "t1" sampleIssueCollector =
        Except.ok (st', issue) ∧
      st'.data.issues.length ≤ 100 ∧
      st'.data.issues = (issue :: sampleIssueCollector.data.issues).take 100 ∧
      (sampleIssueCollector.data.issues.length < 100 →
        st'.data.issues = issue :: sampleIssueCollector.data.issues) ∧
      (sampleIssueCollector.data.issues.length = 100 →
        st'.data.issues = issue :: sampleIssueCollector.data.issues.dropLast) ∧
      st'.data.total_issues = sampleIssueCollector.data.total_issues + 1 :=
  report_caps_issues_at_100 sampleIssueParams "id1" "t1" sampleIssueCollector rfl

/-! C5: merge precedence. -/

/-- Global scope with style `x` = `[tag1]`. -/
def sampleGlobalCfg : StyleConfig :=
  { styles := fun n => if n = "x" then some ["tag1"] else none
    folders := fun p => if p = "/g" then some "x" else none }

/-- Project scope with style `x` = `[tag2]`. -/
def sampleProjectCfg : StyleConfig :=
  { styles := fun n => if n = "x" then some ["tag2"] else none
    folders := fun p => if p = "/g" then some "x" else none }

/-- C5: in `getMergedConfig`, whenever a style name is present in the
project scope, the merged config carries the project scope's tags (so the
project wins when the name exists in both scopes) and the provenance for the
key is `"project"`; likewise for folder paths.  In particular, global
`x = [tag1]` overlaid by project `x = [tag2]` merges to `[tag2]` with
source `"project"`. -/
theorem merged_config_project_wins :
    ∀ (globalCfg projectCfg : StyleConfig),
      (∀ (name : String) (tags : List String),
        projectCfg.styles name = some tags →
          (getMergedConfig globalCfg projectCfg).styles name = some tags ∧
          (getMergedConfig globalCfg projectCfg).sources.styles name =
            some ConfigScope.project) ∧
      (∀ (path styleName : String),
        projectCfg.folders path = some styleName →
          (getMergedConfig globalCfg projectCfg).folders path = some styleName ∧
          (getMergedConfig globalCfg projectCfg).sources.folders path =
            some ConfigScope.project) := by
  intro globalCfg projectCfg
  constructor
  · intro name tags h
    constructor
    · simp only [getMergedConfig, h]
    · simp only [getMergedConfig, h, Option.isSome_some, if_true]
  · intro path styleName h
    constructor
    · simp only [getMergedConfig, h]
    · simp only [getMergedConfig, h, Option.isSome_some, if_true]

/-- Witness for C5: the exact scenario of the spec, global `x` = `[tag1]`
and project `x` = `[tag2]`. -/
theorem merged_config_project_wins_witness :
    (getMergedConfig sampleGlobalCfg sampleProjectCfg).styles "x" = some ["tag2"] ∧
    (getMergedConfig sampleGlobalCfg sampleProjectCfg).sources.styles "x" =
      some ConfigScope.project :=
  (merged_config_project_wins sampleGlobalCfg sampleProjectCfg).1 "x" ["tag2"] rfl

/-! C8: deleteStyle and its cascade. -/

/-- C8: `deleteStyle name scope` returns `true` exactly when the style
exists in the addressed scope; it never touches the other scope's config;
when the style exists it removes it, removes every folder association of
the same scope whose target equals the deleted name, keeps every other
style and every folder association targeting a different name; and when the
style does not exist it leaves the state unchanged (returning `false`). -/
theorem deleteStyle_cascades_same_scope_only :
    ∀ (st : StylesState) (name : String) (scope : ConfigScope),
      ((deleteStyle name scope st).2 = true ↔
        ((configOf scope st).styles name).isSome = true) ∧
      configOf (otherScope scope) (deleteStyle name scope st).1 =
        configOf (otherScope scope) st ∧
      (((configOf scope st).styles name).isSome = true →
        (configOf scope (deleteStyle name scope st).1).styles name = none ∧
        (∀ n, n ≠ name →
          (configOf scope (deleteStyle name scope st).1).styles n =
            (configOf scope st).styles n) ∧
        (∀ f, (configOf scope st).folders f = some name →
          (configOf scope (deleteStyle name scope st).1).folders f = none) ∧
        (∀ f s, s ≠ name → (configOf scope st).folders f = some s →
          (configOf scope (deleteStyle name scope st).1).folders f = some s)) ∧
      (((configOf scope st).styles name).isSome = false →
        (deleteStyle name scope st).1 = st) := by
  intro st name scope
  have main : ∀ (cfg : StyleConfig),
      ((deleteStyleFromConfig name cfg).2 = true ↔ (cfg.styles name).isSome = true) ∧
      ((cfg.styles name).isSome = true →
        (deleteStyleFromConfig name cfg).1.styles name = none ∧
        (∀ n, n ≠ name →
          (deleteStyleFromConfig name cfg).1.styles n = cfg.styles n) ∧
        (∀ f, cfg.folders f = some name →
          (deleteStyleFromConfig name cfg).1.folders f = none) ∧
        (∀ f s, s ≠ name → cfg.folders f = some s →
          (deleteStyleFromConfig name cfg).1.folders f = some s)) ∧
      ((cfg.styles name).isSome = false → (deleteStyleFromConfig name cfg).1 = cfg) := by
    intro cfg
    cases hs : cfg.styles name with
    | none =>
      refine ⟨by simp [deleteStyleFromConfig, hs], ?_, ?_⟩
      · intro h
        simp [hs] at h
      · intro _
        simp [deleteStyleFromConfig, hs]
    | some tags =>
      refine ⟨by simp [deleteStyleFromConfig, hs], ?_, ?_⟩
      · intro _
        refine ⟨?_, ?_, ?_, ?_⟩
        · simp [deleteStyleFromConfig, hs]
        · intro n hn
          simp [deleteStyleFromConfig, hs, hn]
        · intro f hf
          simp [deleteStyleFromConfig, hs, hf]
        · intro f s hsne hf
          simp [deleteStyleFromConfig, hs, hf, hsne]
      · intro h
        simp [hs] at h
  cases scope
  case global =>
    refine ⟨(main st.globalCfg).1, rfl, (main st.globalCfg).2.1, ?_⟩
    intro h
    show ({ st with globalCfg := (deleteStyleFromConfig name st.globalCfg).1 } : StylesState) = st
    rw [(main st.globalCfg).2.2 h]
  case project =>
    refine ⟨(main st.projectCfg).1, rfl, (main st.projectCfg).2.1, ?_⟩
    intro h
    show ({ st with projectCfg := (deleteStyleFromConfig name st.projectCfg).1 } : StylesState) = st
    rw [(main st.projectCfg).2.2 h]

/-- Two-scope sample for the delete cascade: both scopes define style `s`
and both have a folder association targeting it. -/
def sampleStylesState : StylesState :=
  { globalCfg :=
      { styles := fun n => if n = "s" then some ["g"] else none
        folders := fun f => if f = "/gf" then some "s" else none }
    projectCfg :=
      { styles := fun n => if n = "s" then some ["p"] else none
        folders := fun f => if f = "/pf" then some "s" else none } }

/-- Witness for C8: deleting style `s` in the project scope returns `true`,
removes the project-side style and its folder association, and leaves the
global scope (which also defines `s` and points `/gf` at it) untouched. -/
theorem deleteStyle_cascades_same_scope_only_witness :
    (deleteStyle "s" ConfigScope.project sampleStylesState).2 = true ∧
    configOf ConfigScope.global (deleteStyle "s" ConfigScope.project sampleStylesState).1 =
      configOf ConfigScope.global sampleStylesState ∧
    (configOf ConfigScope.project
      (deleteStyle "s" ConfigScope.project sampleStylesState).1).styles "s" = none ∧
    (configOf ConfigScope.project
      (deleteStyle "s" ConfigScope.project sampleStylesState).1).folders "/pf" = none := by
  have h := deleteStyle_cascades_same_scope_only sampleStylesState "s" ConfigScope.project
  have hsome : ((configOf ConfigScope.project sampleStylesState).styles "s").isSome = true := by
    simp [sampleStylesState, configOf]
  refine ⟨h.1.mpr hsome, h.2.1, (h.2.2.1 hsome).1, (h.2.2.1 hsome).2.2.1 "/pf" ?_⟩
  simp [sampleStylesState, configOf]

/-! C2 and C9: the size-trim loop. -/

/-- Trimming never modifies `tool_stats`. -/
lemma trim_preserves_tool_stats (jsonLen : MetricsData → Nat) (maxSizeBytes : Nat)
    (data : MetricsData) :
    (trimInvocationsForSize jsonLen maxSizeBytes data).tool_stats = data.tool_stats := by
  induction data using trimInvocationsForSize.induct jsonLen maxSizeBytes with
  | case1 d h rc ih =>
    rw [trimInvocationsForSize.eq_def]
    simp only [h, dif_pos]
    exact ih
  | case2 d h =>
    rw [trimInvocationsForSize.eq_def]
    simp only [h, dif_neg, not_false_iff]

/-- Trimming never modifies `total_invocations`. -/
lemma trim_preserves_total_invocations (jsonLen : MetricsData → Nat) (maxSizeBytes : Nat)
    (data : MetricsData) :
    (trimInvocationsForSize jsonLen maxSizeBytes data).total_invocations =
      data.total_invocations := by
  induction data using trimInvocationsForSize.induct jsonLen maxSizeBytes with
  | case1 d h rc ih =>
    rw [trimInvocationsForSize.eq_def]
    simp only [h, dif_pos]
    exact ih
  | case2 d h =>
    rw [trimInvocationsForSize.eq_def]
    simp only [h, dif_neg, not_false_iff]

/-- Trimming only ever removes a prefix (the oldest entries) of the
invocation sequence. -/
lemma trim_drops_oldest (jsonLen : MetricsData → Nat) (maxSizeBytes : Nat)
    (data : MetricsData) :
    ∃ k, (trimInvocationsForSize jsonLen maxSizeBytes data).invocations =
      data.invocations.drop k := by
  induction data using trimInvocationsForSize.induct jsonLen maxSizeBytes with
  | case1 d h rc ih =>
    obtain ⟨k, hk⟩ := ih
    refine ⟨rc + k, ?_⟩
    rw [trimInvocationsForSize.eq_def, dif_pos h]
    show (trimInvocationsForSize jsonLen maxSizeBytes
      { d with invocations := d.invocations.drop rc }).invocations =
        List.drop (rc + k) d.invocations
    rw [hk]
    simp [List.drop_drop]
  | case2 d h =>
    rw [trimInvocationsForSize.eq_def]
    simp only [h, dif_neg, not_false_iff]
    exact ⟨0, by rw [List.drop_zero]⟩

/-- Trimming stops exactly when the measured size no longer exceeds the
limit or no invocations remain. -/
lemma trim_stop_condition (jsonLen : MetricsData → Nat) (maxSizeBytes : Nat)
    (data : MetricsData) :
    jsonLen (trimInvocationsForSize jsonLen maxSizeBytes data) ≤ maxSizeBytes ∨
      (trimInvocationsForSize jsonLen maxSizeBytes data).invocations = [] := by
  induction data using trimInvocationsForSize.induct jsonLen maxSizeBytes with
  | case1 d h rc ih =>
    rw [trimInvocationsForSize.eq_def]
    simp only [h, dif_pos]
    exact ih
  | case2 d h =>
    rw [trimInvocationsForSize.eq_def]
    simp only [h, dif_neg, not_false_iff]
    rw [not_and_or] at h
    rcases h with h | h
    · exact Or.inl (by omega)
    · exact Or.inr (List.length_eq_zero.mp (by omega))

/-- C2: for every document and configured maximum, the flush-time trim
drops the oldest `max(1, ⌊0.25 × count⌋)` entries per iteration and
re-measures while the serialized document exceeds the maximum and entries
remain; the result satisfies "serialized size does not exceed the maximum,
or the sequence is empty"; only a prefix of oldest entries is ever removed;
and `tool_stats` and `total_invocations` are never modified. -/
theorem trim_shrinks_until_fit_preserving_stats :
    ∀ (jsonLen : MetricsData → Nat) (maxSizeBytes : Nat) (data : MetricsData),
      (trimInvocationsForSize jsonLen maxSizeBytes data).tool_stats = data.tool_stats ∧
      (trimInvocationsForSize jsonLen maxSizeBytes data).total_invocations =
        data.total_invocations ∧
      (∃ k, (trimInvocationsForSize jsonLen maxSizeBytes data).invocations =
        data.invocations.drop k) ∧
      (jsonLen (trimInvocationsForSize jsonLen maxSizeBytes data) ≤ maxSizeBytes ∨
        (trimInvocationsForSize jsonLen maxSizeBytes data).invocations = []) ∧
      (jsonLen data > maxSizeBytes → data.invocations ≠ [] →
        trimInvocationsForSize jsonLen maxSizeBytes data =
          trimInvocationsForSize jsonLen maxSizeBytes
            { data with
              invocations :=
                data.invocations.drop (Nat.max 1 (data.invocations.length / 4)) }) ∧
      (jsonLen data ≤ maxSizeBytes ∨ data.invocations = [] →
        trimInvocationsForSize jsonLen maxSizeBytes data = data) := by
  intro jsonLen maxSizeBytes data
  refine ⟨trim_preserves_tool_stats _ _ _, trim_preserves_total_invocations _ _ _,
    trim_drops_oldest _ _ _, trim_stop_condition _ _ _, ?_, ?_⟩
  · intro h1 h2
    conv_lhs => rw [trimInvocationsForSize.eq_def]
    rw [dif_pos ⟨h1, List.length_pos.mpr h2⟩]
  · intro h
    rw [trimInvocationsForSize.eq_def]
    rw [dif_neg]
    rw [not_and_or]
    rcases h with h | h
    · exact Or.inl (by omega)
    · exact Or.inr (by simp [h])

/-- Witness for C2 at a concrete two-invocation document: with the length
of the invocation sequence as the size measure and a maximum of `0`, one
iteration fires; with a maximum of `5` the document is already small enough
and the trim is the identity. -/
theorem trim_shrinks_until_fit_preserving_stats_witness :
    (trimInvocationsForSize (fun d => d.invocations.length) 0 sampleMetricsData =
      trimInvocationsForSize (fun d => d.invocations.length) 0
        { sampleMetricsData with
          invocations :=
            sampleMetricsData.invocations.drop
              (Nat.max 1 (sampleMetricsData.invocations.length / 4)) }) ∧
    (trimInvocationsForSize (fun d => d.invocations.length) 5 sampleMetricsData =
      sampleMetricsData) := by
  constructor
  · exact (trim_shrinks_until_fit_preserving_stats (fun d => d.invocations.length) 0
      sampleMetricsData).2.2.2.2.1 (by simp [sampleMetricsData]) (by simp [sampleMetricsData])
  · exact (trim_shrinks_until_fit_preserving_stats (fun d => d.invocations.length) 5
      sampleMetricsData).2.2.2.2.2 (Or.inl (by simp [sampleMetricsData]))

/-- Fuel of one more than the current invocation count always suffices for
the trim loop. -/
lemma trimFuel_adequate (jsonLen : MetricsData → Nat) (maxSizeBytes : Nat) :
    ∀ (n : Nat) (data : MetricsData), data.invocations.length < n →
      trimFuel jsonLen maxSizeBytes n data =
        some (trimInvocationsForSize jsonLen maxSizeBytes data) := by
  intro n
  induction n with
  | zero => intro data h; omega
  | succ m ih =>
    intro data h
    by_cases hc : jsonLen data > maxSizeBytes ∧ data.invocations.length > 0
    · have h1 : 1 ≤ Nat.max 1 (data.invocations.length / 4) := Nat.le_max_left _ _
      have hlt : ({ data with
          invocations :=
            data.invocations.drop (Nat.max 1 (data.invocations.length / 4)) } :
            MetricsData).invocations.length < m := by
        simp only [List.length_drop]
        omega
      rw [trimFuel, if_pos hc, ih _ hlt]
      congr 1
      conv_rhs => rw [trimInvocationsForSize.eq_def]
      rw [dif_pos hc]
    · rw [trimFuel, if_neg hc, trimInvocationsForSize.eq_def, dif_neg hc]

/-- C9: the trim loop terminates for every document and every maximum size
(a maximum of `0` included): since every iteration removes
`max(1, ⌊0.25 × count⌋) ≥ 1` entries, the invocation count strictly
decreases, and running the loop with `count + 1` units of fuel — one per
iteration — always reaches the stopped state, matching the fuel-free
function. -/
theorem trim_loop_terminates :
    ∀ (jsonLen : MetricsData → Nat) (maxSizeBytes : Nat) (data : MetricsData),
      trimFuel jsonLen maxSizeBytes (data.invocations.length + 1) data =
        some (trimInvocationsForSize jsonLen maxSizeBytes data) := by
  intro jsonLen maxSizeBytes data
  exact trimFuel_adequate jsonLen maxSizeBytes _ data (by omega)

/-! C1 and C6: per-tool aggregation. -/

/-- `record` leaves the initialization flag alone. -/
lemma record_initialized (inv : ToolInvocation) (now : String)
    (st : MetricsCollectorState) :
    (MetricsCollector.record inv now st).initialized = st.initialized := by
  unfold MetricsCollector.record
  split <;> rfl

/-- On an initialized collector, `record` routes the stats map through
`updateToolStats`. -/
lemma record_tool_stats (inv : ToolInvocation) (now : String)
    (st : MetricsCollectorState) (h : st.initialized = true) :
    (MetricsCollector.record inv now st).data.tool_stats =
      updateToolStats st.data.tool_stats inv := by
  simp [MetricsCollector.record, h]

/-- On an uninitialized collector, `record` is the identity. -/
lemma record_uninit (inv : ToolInvocation) (now : String)
    (st : MetricsCollectorState) (h : ¬ st.initialized = true) :
    MetricsCollector.record inv now st = st := by
  simp [MetricsCollector.record, h]

/-- `updateToolStats` on a tool with an existing entry produces the
incremented entry at that tool's key. -/
lemma updateToolStats_existing {stats : String → Option ToolStats}
    {inv : ToolInvocation} {existing : ToolStats}
    (h : stats inv.tool = some existing) :
    updateToolStats stats inv inv.tool =
      some { call_count := existing.call_count + 1
             total_duration_ms := existing.total_duration_ms + inv.duration_ms
             avg_duration_ms :=
               mathRound (existing.total_duration_ms + inv.duration_ms)
                 (existing.call_count + 1)
             success_count :=
               if inv.success then existing.success_count + 1 else existing.success_count
             error_count :=
               if inv.success then existing.error_count else existing.error_count + 1
             last_used := inv.timestamp } := by
  unfold updateToolStats
  rw [h]
  simp

/-- `updateToolStats` on a tool with no existing entry seeds a fresh entry
from the single event. -/
lemma updateToolStats_fresh {stats : String → Option ToolStats}
    {inv : ToolInvocation} (h : stats inv.tool = none) :
    updateToolStats stats inv inv.tool =
      some { call_count := 1
             total_duration_ms := inv.duration_ms
             avg_duration_ms := inv.duration_ms
             success_count := if inv.success then 1 else 0
             error_count := if inv.success then 0 else 1
             last_used := inv.timestamp } := by
  unfold updateToolStats
  rw [h]
  simp

/-- `updateToolStats` leaves every other tool's entry unchanged. -/
lemma updateToolStats_other {stats : String → Option ToolStats}
    {inv : ToolInvocation} (n : String) (hn : n ≠ inv.tool) :
    updateToolStats stats inv n = stats n := by
  unfold updateToolStats
  cases stats inv.tool <;> simp [hn]

/-- `Math.round(d / 1) = d`. -/
lemma mathRound_one (d : Nat) : mathRound d 1 = d := by
  unfold mathRound
  omega

/-- Recording a run of same-tool invocations on top of an existing stats
entry adds the run's length to `call_count`, its duration sum to
`total_duration_ms`, its success/error split to the respective counters,
and recomputes `avg_duration_ms` from the final totals (when the run is
nonempty). -/
lemma recordSeq_stats_from (l : List (ToolInvocation × String)) :
    ∀ (st : MetricsCollectorState) (name : String) (s : ToolStats),
      st.initialized = true →
      st.data.tool_stats name = some s →
      (∀ p ∈ l, (p : ToolInvocation × String).1.tool = name) →
      ∃ s', (recordSeq l st).data.tool_stats name = some s' ∧
        s'.call_count = s.call_count + l.length ∧
        s'.total_duration_ms =
          s.total_duration_ms + (l.map (fun p => p.1.duration_ms)).sum ∧
        s'.success_count = s.success_count + (l.filter (fun p => p.1.success)).length ∧
        s'.error_count = s.error_count + (l.filter (fun p => !p.1.success)).length ∧
        (l = [] → s' = s) ∧
        (l ≠ [] →
          s'.avg_duration_ms = mathRound s'.total_duration_ms s'.call_count) := by
  induction l with
  | nil =>
    intro st name s hinit hs hall
    exact ⟨s, hs, by simp, by simp, by simp, by simp, fun _ => rfl,
      fun h => absurd rfl h⟩
  | cons p t ih =>
    intro st name s hinit hs hall
    have hp : p.1.tool = name := hall p (List.mem_cons_self _ _)
    subst hp
    have h1init : (MetricsCollector.record p.1 p.2 st).initialized = true := by
      rw [record_initialized]
      exact hinit
    have hstats1 : (MetricsCollector.record p.1 p.2 st).data.tool_stats p.1.tool =
        some { call_count := s.call_count + 1
               total_duration_ms := s.total_duration_ms + p.1.duration_ms
               avg_duration_ms :=
                 mathRound (s.total_duration_ms + p.1.duration_ms) (s.call_count + 1)
               success_count :=
                 if p.1.success then s.success_count + 1 else s.success_count
               error_count :=
                 if p.1.success then s.error_count else s.error_count + 1
               last_used := p.1.timestamp } := by
      rw [record_tool_stats _ _ _ hinit, updateToolStats_existing hs]
    obtain ⟨s', hs', hc, ht, hsc, hec, hnil, havg⟩ :=
      ih (MetricsCollector.record p.1 p.2 st) p.1.tool _ h1init hstats1
        (fun q hq => hall q (List.mem_cons_of_mem _ hq))
    refine ⟨s', hs', ?_, ?_, ?_, ?_, ?_, ?_⟩
    · dsimp only at hc
      simp only [List.length_cons]
      omega
    · dsimp only at ht
      simp only [List.map_cons, List.sum_cons]
      omega
    · dsimp only at hsc
      cases hps : p.1.success <;>
        simp [hps, List.filter_cons] at hsc ⊢ <;>
        omega
    · dsimp only at hec
      cases hps : p.1.success <;>
        simp [hps, List.filter_cons] at hec ⊢ <;>
        omega
    · intro h
      exact absurd h (List.cons_ne_nil _ _)
    · intro _
      rcases eq_or_ne t [] with h | h
      · rw [hnil h]
      · exact havg h

/-- C1: recording a nonempty run of `N` same-tool invocations with
durations `d₁..dₙ` on an initialized collector that has no prior entry for
that tool yields a `tool_stats` entry with `call_count = N`,
`total_duration_ms = Σ dᵢ`, and `avg_duration_ms = round(Σ dᵢ / N)`
(round half-up, not truncation); and every application of
`trimInvocationsForSize`, for any size measure and any maximum, leaves that
entry unchanged. -/
theorem tool_stats_aggregates_durations :
    ∀ (name : String) (st : MetricsCollectorState)
      (l : List (ToolInvocation × String)),
      st.initialized = true →
      st.data.tool_stats name = none →
      (∀ p ∈ l, (p : ToolInvocation × String).1.tool = name) →
      l ≠ [] →
      ∃ s, (recordSeq l st).data.tool_stats name = some s ∧
        s.call_count = l.length ∧
        s.total_duration_ms = (l.map (fun p => p.1.duration_ms)).sum ∧
        s.avg_duration_ms =
          mathRound ((l.map (fun p => p.1.duration_ms)).sum) l.length ∧
        ∀ (jsonLen : MetricsData → Nat) (maxSizeBytes : Nat),
          (trimInvocationsForSize jsonLen maxSizeBytes
            (recordSeq l st).data).tool_stats name = some s := by
  intro name st l hinit hnone hall hne
  obtain ⟨p, t, rfl⟩ := List.exists_cons_of_ne_nil hne
  have hp : p.1.tool = name := hall p (List.mem_cons_self _ _)
  subst hp
  have h1init : (MetricsCollector.record p.1 p.2 st).initialized = true := by
    rw [record_initialized]
    exact hinit
  have hstats1 : (MetricsCollector.record p.1 p.2 st).data.tool_stats p.1.tool =
      some { call_count := 1
             total_duration_ms := p.1.duration_ms
             avg_duration_ms := p.1.duration_ms
             success_count := if p.1.success then 1 else 0
             error_count := if p.1.success then 0 else 1
             last_used := p.1.timestamp } := by
    rw [record_tool_stats _ _ _ hinit, updateToolStats_fresh hnone]
  obtain ⟨s, hs, hc, ht, _, _, hnil, havg⟩ :=
    recordSeq_stats_from t (MetricsCollector.record p.1 p.2 st) p.1.tool _
      h1init hstats1 (fun q hq => hall q (List.mem_cons_of_mem _ hq))
  dsimp only at hc ht
  have hcount : s.call_count = (p :: t).length := by
    simp only [List.length_cons]
    omega
  have htotal : s.total_duration_ms = ((p :: t).map (fun p => p.1.duration_ms)).sum := by
    simp only [List.map_cons, List.sum_cons]
    omega
  refine ⟨s, hs, hcount, htotal, ?_, ?_⟩
  · rcases eq_or_ne t [] with hte | hte
    · subst hte
      rw [hnil rfl]
      dsimp only
      simp only [List.map_cons, List.map_nil, List.sum_cons, List.sum_nil,
        List.length_cons, List.length_nil, Nat.add_zero]
      rw [mathRound_one]
    · rw [havg hte, hcount, htotal]
  · intro jsonLen maxSizeBytes
    rw [trim_preserves_tool_stats]
    exact hs

/-- Witness for C1: three invocations of `search` with durations 100, 200
and 300 on a freshly initialized collector. -/
theorem tool_stats_aggregates_durations_witness :
    (∀ p ∈ sampleSeq, (p : ToolInvocation × String).1.tool = "search") ∧
    ∃ s, (recordSeq sampleSeq sampleCollector).data.tool_stats "search" = some s ∧
      s.call_count = sampleSeq.length ∧
      s.total_duration_ms = (sampleSeq.map (fun p => p.1.duration_ms)).sum ∧
      s.avg_duration_ms =
        mathRound ((sampleSeq.map (fun p => p.1.duration_ms)).sum) sampleSeq.length ∧
      ∀ (jsonLen : MetricsData → Nat) (maxSizeBytes : Nat),
        (trimInvocationsForSize jsonLen maxSizeBytes
          (recordSeq sampleSeq sampleCollector).data).tool_stats "search" = some s :=
  ⟨by decide,
   tool_stats_aggregates_durations "search" sampleCollector sampleSeq rfl rfl
     (by decide) (by decide)⟩

/-- C6: for every tool name and every sequence of recorded invocations
(starting from any collector state whose entries already satisfy it), every
`tool_stats` entry satisfies `call_count = success_count + error_count` and
`avg_duration_ms = round(total_duration_ms / call_count)` after every
update — for the first invocation of a tool and for every subsequent one
alike. -/
theorem tool_stats_counts_and_average_invariant :
    ∀ (l : List (ToolInvocation × String)) (st : MetricsCollectorState),
      (∀ t s, st.data.tool_stats t = some s →
        s.call_count = s.success_count + s.error_count ∧
        s.avg_duration_ms = mathRound s.total_duration_ms s.call_count) →
      ∀ t s, (recordSeq l st).data.tool_stats t = some s →
        s.call_count = s.success_count + s.error_count ∧
        s.avg_duration_ms = mathRound s.total_duration_ms s.call_count := by
  have step : ∀ (inv : ToolInvocation) (now : String) (st : MetricsCollectorState),
      (∀ t s, st.data.tool_stats t = some s →
        s.call_count = s.success_count + s.error_count ∧
        s.avg_duration_ms = mathRound s.total_duration_ms s.call_count) →
      ∀ t s, (MetricsCollector.record inv now st).data.tool_stats t = some s →
        s.call_count = s.success_count + s.error_count ∧
        s.avg_duration_ms = mathRound s.total_duration_ms s.call_count := by
    intro inv now st hall t s hts
    by_cases hinit : st.initialized = true
    · rw [record_tool_stats _ _ _ hinit] at hts
      by_cases htool : t = inv.tool
      · subst htool
        cases hex : st.data.tool_stats inv.tool with
        | some existing =>
          rw [updateToolStats_existing hex] at hts
          obtain ⟨h1, h2⟩ := hall _ _ hex
          cases hts
          constructor
          · dsimp only
            cases inv.success <;> simp <;> omega
          · rfl
        | none =>
          rw [updateToolStats_fresh hex] at hts
          cases hts
          constructor
          · dsimp only
            cases inv.success <;> simp
          · dsimp only
            rw [mathRound_one]
      · rw [updateToolStats_other _ htool] at hts
        exact hall _ _ hts
    · rw [record_uninit _ _ _ hinit] at hts
      exact hall _ _ hts
  intro l
  induction l with
  | nil => intro st h; exact h
  | cons p t ih =>
    intro st h
    exact ih _ (step p.1 p.2 st h)

/-- Witness for C6: the stats entry produced by the three sample `search`
invocations satisfies both invariant equations. -/
theorem tool_stats_counts_and_average_invariant_witness :
    ({ call_count := 3, total_duration_ms := 600, avg_duration_ms := 200,
       success_count := 3, error_count := 0,
       last_used := "2026-01-01T00:00:00.000Z" } : ToolStats).call_count =
      ({ call_count := 3, total_duration_ms := 600, avg_duration_ms := 200,
         success_count := 3, error_count := 0,
         last_used := "2026-01-01T00:00:00.000Z" } : ToolStats).success_count +
      ({ call_count := 3, total_duration_ms := 600, avg_duration_ms := 200,
         success_count := 3, error_count := 0,
         last_used := "2026-01-01T00:00:00.000Z" } : ToolStats).error_count ∧
    ({ call_count := 3, total_duration_ms := 600, avg_duration_ms := 200,
       success_count := 3, error_count := 0,
       last_used := "2026-01-01T00:00:00.000Z" } : ToolStats).avg_duration_ms =
      mathRound
        ({ call_count := 3, total_duration_ms := 600, avg_duration_ms := 200,
           success_count := 3, error_count := 0,
           last_used := "2026-01-01T00:00:00.000Z" } : ToolStats).total_duration_ms
        ({ call_count := 3, total_duration_ms := 600, avg_duration_ms := 200,
           success_count := 3, error_count := 0,
           last_used := "2026-01-01T00:00:00.000Z" } : ToolStats).call_count :=
  tool_stats_counts_and_average_invariant sampleSeq sampleCollector
    (fun _ _ h => Option.noConfusion h) "search" _ (by decide)

/-! C4 and C10: folder-style resolution. -/

/-- A successful association check reports the path it matched. -/
lemma lookupFolderStyle_matchedPath {config : MergedStyleConfig} {path : String}
    {r : FolderStyleMatch} (h : lookupFolderStyle config path = some r) :
    r.matchedPath = path := by
  cases hf : config.folders path with
  | none =>
    simp only [lookupFolderStyle, hf] at h
    exact Option.noConfusion h
  | some styleName =>
    cases hs : config.styles styleName with
    | none =>
      simp only [lookupFolderStyle, hf, hs] at h
      exact Option.noConfusion h
    | some tags =>
      simp only [lookupFolderStyle, hf, hs, Option.some.injEq] at h
      rw [← h]

/-- The ancestor walk returns nothing exactly when no ancestor prefix of
the path (from one component up to the loop's starting index) has a
resolvable association. -/
lemma walkParentPaths_none_iff (config : MergedStyleConfig) (parts : List String) :
    ∀ i, walkParentPaths config parts i = none ↔
      ∀ k, 1 ≤ k → k ≤ i →
        lookupFolderStyle config (joinSlash (parts.take k)) = none := by
  intro i
  induction i with
  | zero =>
    constructor
    · intro _ k hk1 hk2
      omega
    · intro _
      rfl
  | succ i ih =>
    constructor
    · intro h k hk1 hk2
      cases hl : lookupFolderStyle config (joinSlash (parts.take (i + 1))) with
      | some r =>
        simp only [walkParentPaths, hl] at h
        exact Option.noConfusion h
      | none =>
        simp only [walkParentPaths, hl] at h
        rcases Nat.lt_or_ge k (i + 1) with hk | hk
        · exact (ih.mp h) k hk1 (by omega)
        · have hke : k = i + 1 := by omega
          subst hke
          exact hl
    · intro h
      have hl : lookupFolderStyle config (joinSlash (parts.take (i + 1))) = none :=
        h (i + 1) (by omega) (le_refl _)
      simp only [walkParentPaths, hl]
      exact ih.mpr (fun k hk1 hk2 => h k hk1 (by omega))

/-- The ancestor walk returns the first resolvable association scanning
from the deepest checked prefix toward the root: every deeper checked
prefix fails. -/
lemma walkParentPaths_first_match (config : MergedStyleConfig) (parts : List String) :
    ∀ i r, walkParentPaths config parts i = some r →
      ∃ k, 1 ≤ k ∧ k ≤ i ∧
        lookupFolderStyle config (joinSlash (parts.take k)) = some r ∧
        ∀ m, k < m → m ≤ i →
          lookupFolderStyle config (joinSlash (parts.take m)) = none := by
  intro i
  induction i with
  | zero =>
    intro r h
    exact Option.noConfusion h
  | succ i ih =>
    intro r h
    cases hl : lookupFolderStyle config (joinSlash (parts.take (i + 1))) with
    | some r2 =>
      simp only [walkParentPaths, hl] at h
      cases h
      exact ⟨i + 1, by omega, le_refl _, hl, fun m hm1 hm2 => absurd hm1 (by omega)⟩
    | none =>
      simp only [walkParentPaths, hl] at h
      obtain ⟨k, hk1, hk2, hk3, hk4⟩ := ih r h
      refine ⟨k, hk1, by omega, hk3, fun m hm1 hm2 => ?_⟩
      rcases Nat.lt_or_ge m (i + 1) with hm | hm
      · exact hk4 m hm1 (by omega)
      · have hme : m = i + 1 := by omega
        subst hme
        exact hl

/-- An exact resolvable match short-circuits the resolution. -/
lemma getStyleForFolder_exact {config : MergedStyleConfig} {folderPath : String}
    {r : FolderStyleMatch}
    (h : lookupFolderStyle config (normalizePath folderPath) = some r) :
    getStyleForFolder config folderPath = some r := by
  simp only [getStyleForFolder, h]

/-- When the exact check fails, resolution is the ancestor walk. -/
lemma getStyleForFolder_walk {config : MergedStyleConfig} {folderPath : String}
    (h : lookupFolderStyle config (normalizePath folderPath) = none) :
    getStyleForFolder config folderPath =
      walkParentPaths config (splitSlash (normalizePath folderPath))
        ((splitSlash (normalizePath folderPath)).length - 1) := by
  simp only [getStyleForFolder, h]

/-- Merged config with associations `/a` = `S1` and `/a/b` = `S2`, both
resolvable. -/
def exampleMergedConfig : MergedStyleConfig :=
  { styles := fun n =>
      if n = "S1" then some ["tag1"] else if n = "S2" then some ["tag2"] else none
    folders := fun p =>
      if p = "/a" then some "S1" else if p = "/a/b" then some "S2" else none
    sources := { styles := fun _ => none, folders := fun _ => none } }

/-- C4: `getStyleForFolder` first normalizes the path; a normalized path
whose own association resolves is returned as an exact match (with the
matched path equal to the normalized input); otherwise the result, when
any, is the nearest enclosing ancestor whose association resolves — it
comes from some ancestor prefix, and every deeper checked ancestor fails.
In particular, with `/a` = `S1` and `/a/b` = `S2`, resolving `/a/b/c`
returns `S2` matched at `/a/b`, and resolving `/a/x` returns `S1` matched
at `/a`. -/
theorem folder_resolution_nearest_ancestor :
    (∀ (config : MergedStyleConfig) (folderPath : String) (r : FolderStyleMatch),
      lookupFolderStyle config (normalizePath folderPath) = some r →
        getStyleForFolder config folderPath = some r ∧
        r.matchedPath = normalizePath folderPath) ∧
    (∀ (config : MergedStyleConfig) (folderPath : String) (r : FolderStyleMatch),
      getStyleForFolder config folderPath = some r →
        lookupFolderStyle config (normalizePath folderPath) = some r ∨
        (lookupFolderStyle config (normalizePath folderPath) = none ∧
          ∃ k, 1 ≤ k ∧ k ≤ (splitSlash (normalizePath folderPath)).length - 1 ∧
            lookupFolderStyle config
              (joinSlash ((splitSlash (normalizePath folderPath)).take k)) = some r ∧
            r.matchedPath = joinSlash ((splitSlash (normalizePath folderPath)).take k) ∧
            ∀ m, k < m → m ≤ (splitSlash (normalizePath folderPath)).length - 1 →
              lookupFolderStyle config
                (joinSlash ((splitSlash (normalizePath folderPath)).take m)) = none)) ∧
    getStyleForFolder exampleMergedConfig "/a/b/c" =
      some { style := "S2", tags := ["tag2"], matchedPath := "/a/b" } ∧
    getStyleForFolder exampleMergedConfig "/a/x" =
      some { style := "S1", tags := ["tag1"], matchedPath := "/a" } := by
  refine ⟨?_, ?_, by decide, by decide⟩
  · intro config folderPath r h
    exact ⟨getStyleForFolder_exact h, lookupFolderStyle_matchedPath h⟩
  · intro config folderPath r h
    cases hl : lookupFolderStyle config (normalizePath folderPath) with
    | some r2 =>
      left
      rw [getStyleForFolder_exact hl] at h
      obtain rfl := Option.some.inj h
      rfl
    | none =>
      right
      rw [getStyleForFolder_walk hl] at h
      obtain ⟨k, hk1, hk2, hk3, hk4⟩ := walkParentPaths_first_match _ _ _ _ h
      exact ⟨rfl, k, hk1, hk2, hk3, lookupFolderStyle_matchedPath hk3, hk4⟩

/-- Witness for C4: the exact-match clause applied at `/a/b/` (exercising
trailing-slash normalization), and the first-match clause applied at
`/a/b/c`, both on the example config. -/
theorem folder_resolution_nearest_ancestor_witness :
    (getStyleForFolder exampleMergedConfig "/a/b/" =
        some { style := "S2", tags := ["tag2"], matchedPath := "/a/b" } ∧
      ({ style := "S2", tags := ["tag2"], matchedPath := "/a/b" } :
          FolderStyleMatch).matchedPath = normalizePath "/a/b/") ∧
    (lookupFolderStyle exampleMergedConfig (normalizePath "/a/b/c") =
        some { style := "S2", tags := ["tag2"], matchedPath := "/a/b" } ∨
      (lookupFolderStyle exampleMergedConfig (normalizePath "/a/b/c") = none ∧
        ∃ k, 1 ≤ k ∧ k ≤ (splitSlash (normalizePath "/a/b/c")).length - 1 ∧
          lookupFolderStyle exampleMergedConfig
            (joinSlash ((splitSlash (normalizePath "/a/b/c")).take k)) =
              some { style := "S2", tags := ["tag2"], matchedPath := "/a/b" } ∧
          ({ style := "S2", tags := ["tag2"], matchedPath := "/a/b" } :
              FolderStyleMatch).matchedPath =
            joinSlash ((splitSlash (normalizePath "/a/b/c")).take k) ∧
          ∀ m, k < m → m ≤ (splitSlash (normalizePath "/a/b/c")).length - 1 →
            lookupFolderStyle exampleMergedConfig
              (joinSlash ((splitSlash (normalizePath "/a/b/c")).take m)) = none)) :=
  ⟨folder_resolution_nearest_ancestor.1 exampleMergedConfig "/a/b/"
      { style := "S2", tags := ["tag2"], matchedPath := "/a/b" } (by decide),
   folder_resolution_nearest_ancestor.2.1 exampleMergedConfig "/a/b/c"
      { style := "S2", tags := ["tag2"], matchedPath := "/a/b" } (by decide)⟩

/-- Config with a dangling association at `/a/b` (target style `ghost`
does not exist) and a resolvable one at `/a`. -/
def exampleDanglingConfig : MergedStyleConfig :=
  { styles := fun n => if n = "S1" then some ["tag1"] else none
    folders := fun p =>
      if p = "/a" then some "S1" else if p = "/a/b" then some "ghost" else none
    sources := { styles := fun _ => none, folders := fun _ => none } }

/-- C10: a dangling association at the exact normalized path does not stop
the resolution: `getStyleForFolder` returns nothing exactly when neither
the normalized path itself nor any checked ancestor prefix has a
resolvable association.  In particular, with `/a/b` associated to the
nonexistent style `ghost` and `/a` to the existing `S1`, resolving `/a/b`
falls through to the ancestor and returns `S1` matched at `/a`. -/
theorem dangling_association_falls_back_to_ancestors :
    (∀ (config : MergedStyleConfig) (folderPath : String),
      getStyleForFolder config folderPath = none ↔
        (lookupFolderStyle config (normalizePath folderPath) = none ∧
          ∀ k, 1 ≤ k → k ≤ (splitSlash (normalizePath folderPath)).length - 1 →
            lookupFolderStyle config
              (joinSlash ((splitSlash (normalizePath folderPath)).take k)) = none)) ∧
    exampleDanglingConfig.folders "/a/b" = some "ghost" ∧
    exampleDanglingConfig.styles "ghost" = none ∧
    getStyleForFolder exampleDanglingConfig "/a/b" =
      some { style := "S1", tags := ["tag1"], matchedPath := "/a" } := by
  refine ⟨?_, by decide, by decide, by decide⟩
  intro config folderPath
  cases hl : lookupFolderStyle config (normalizePath folderPath) with
  | some r =>
    constructor
    · intro h
      rw [getStyleForFolder_exact hl] at h
      exact Option.noConfusion h
    · intro hc
      exact Option.noConfusion hc.1
  | none =>
    rw [getStyleForFolder_walk hl]
    constructor
    · intro h
      exact ⟨rfl, (walkParentPaths_none_iff _ _ _).mp h⟩
    · intro ⟨_, h2⟩
      exact (walkParentPaths_none_iff _ _ _).mpr h2

/-- Witness for C10: resolving `/z` on the dangling-example config yields
nothing, so in particular the exact check at its normalization fails. -/
theorem dangling_association_falls_back_to_ancestors_witness :
    lookupFolderStyle exampleDanglingConfig (normalizePath "/z") = none :=
  ((dangling_association_falls_back_to_ancestors.1 exampleDanglingConfig "/z").mp
    (by decide)).1
